import Mathlib

/-!
Verification development for an interactive recursive raytracer (Rust).

The source is shallowly embedded: `f32` arithmetic is modelled by exact
rationals `ℚ` (camera trigonometry, which is irreducibly transcendental,
is modelled over `ℝ`); irrational primitives of the float library
(`sqrt`, `powf`) and the external collaborators (sky lookup, texture
lookup, per-pixel shading for the frame scheduler) are abstracted as
function parameters, exactly at the boundaries the specification itself
declares external.  Fallible and stateful code is made explicit:
rendering passes are embedded as traces of framebuffer operations, the
frame scheduler as a pure step function on its episode state.
-/

/-- 3-component vector (raylib `Vector3`), generic over the scalar model. -/
structure Vec3 (α : Type) where
  x : α
  y : α
  z : α
deriving DecidableEq, Repr

/-- Componentwise vector addition. -/
def Vec3.add {α : Type} [Field α] (a b : Vec3 α) : Vec3 α :=
  ⟨a.x + b.x, a.y + b.y, a.z + b.z⟩

/-- Componentwise vector subtraction. -/
def Vec3.sub {α : Type} [Field α] (a b : Vec3 α) : Vec3 α :=
  ⟨a.x - b.x, a.y - b.y, a.z - b.z⟩

/-- Vector negation. -/
def Vec3.neg {α : Type} [Field α] (a : Vec3 α) : Vec3 α :=
  ⟨-a.x, -a.y, -a.z⟩

/-- Scaling a vector by a scalar on the right (Rust `v * k`). -/
def Vec3.smul {α : Type} [Field α] (a : Vec3 α) (k : α) : Vec3 α :=
  ⟨a.x * k, a.y * k, a.z * k⟩

/-- Dot product. -/
def Vec3.dot {α : Type} [Field α] (a b : Vec3 α) : α :=
  a.x * b.x + a.y * b.y + a.z * b.z

/-- Cross product. -/
def Vec3.cross {α : Type} [Field α] (a b : Vec3 α) : Vec3 α :=
  ⟨a.y * b.z - a.z * b.y, a.z * b.x - a.x * b.z, a.x * b.y - a.y * b.x⟩

/-- The zero vector. -/
def Vec3.zero {α : Type} [Field α] : Vec3 α := ⟨0, 0, 0⟩

/-- Model of `length` via an abstract square-root function (models `f32::sqrt`). -/
def Vec3.lengthF {α : Type} [Field α] (sqrtF : α → α) (a : Vec3 α) : α :=
  sqrtF (Vec3.dot a a)

/-- Model of `normalized` via an abstract square-root function: `v / |v|`
(division by zero yields the junk value `0`, matching the spec's
"undefined on the zero vector — caller must avoid"). -/
def Vec3.normalizedF {α : Type} [Field α] (sqrtF : α → α) (a : Vec3 α) : Vec3 α :=
  Vec3.smul a (1 / Vec3.lengthF sqrtF a)

/-- Albedo weights `[k_diffuse, k_specular, k_reflect, k_transmit]`
(the Rust `[f32; 4]`). -/
structure Albedo where
  a0 : ℚ
  a1 : ℚ
  a2 : ℚ
  a3 : ℚ
deriving DecidableEq, Repr

/-- Model of `Material` (material.rs).  Texture ids are opaque names. -/
structure Material where
  diffuse : Vec3 ℚ
  albedo : Albedo
  specular : ℚ
  refractiveIndex : ℚ
  textureId : Option String
  normalMapId : Option String
deriving DecidableEq, Repr

/-- Model of `Material::black()` — the inert placeholder material (material.rs lines 32-41). -/
def Material.black : Material :=
  { diffuse := Vec3.zero
    albedo := ⟨0, 0, 0, 0⟩
    specular := 0
    refractiveIndex := 0
    textureId := none
    normalMapId := none }

/-- Intersection result record (ray_intersect.rs). -/
structure Intersect where
  point : Vec3 ℚ
  normal : Vec3 ℚ
  distance : ℚ
  isIntersecting : Bool
  material : Material
  u : ℚ
  v : ℚ
deriving DecidableEq, Repr

/-- Model of `Intersect::new` (ray_intersect.rs lines 16-33): hit flag set true. -/
def Intersect.new (point normal : Vec3 ℚ) (distance : ℚ) (material : Material)
    (u v : ℚ) : Intersect :=
  { point := point, normal := normal, distance := distance,
    isIntersecting := true, material := material, u := u, v := v }

/-- Model of `Intersect::empty` (ray_intersect.rs lines 35-45): the no-hit sentinel. -/
def Intersect.empty : Intersect :=
  { point := Vec3.zero, normal := Vec3.zero, distance := 0,
    isIntersecting := false, material := Material.black, u := 0, v := 0 }

/-- Axis-aligned cube primitive (cube.rs). -/
structure Cube where
  center : Vec3 ℚ
  size : ℚ
  material : Material
deriving DecidableEq, Repr

/-- Model of `f32::signum` on exact rationals (`+0.0` has signum `1.0`;
negative zero does not exist in `ℚ`). -/
def qSignum (q : ℚ) : ℚ := if q < 0 then -1 else 1

/-- Per-axis inverse direction with the near-zero substitution
(cube.rs lines 51-55): components with `|d| < 1e-6` use the large
inverse `1e6` instead of dividing by zero. -/
def cubeInvDir (d : Vec3 ℚ) : Vec3 ℚ :=
  ⟨if |d.x| < 1/1000000 then 1000000 else 1 / d.x,
   if |d.y| < 1/1000000 then 1000000 else 1 / d.y,
   if |d.z| < 1/1000000 then 1000000 else 1 / d.z⟩

/-- Slab entry parameter `tmin` (cube.rs lines 57-64). -/
def cubeTmin (c : Cube) (o d : Vec3 ℚ) : ℚ :=
  let halfSize := c.size / 2
  let mn := Vec3.sub c.center ⟨halfSize, halfSize, halfSize⟩
  let mx := Vec3.add c.center ⟨halfSize, halfSize, halfSize⟩
  let inv := cubeInvDir d
  let t1 := (mn.x - o.x) * inv.x
  let t2 := (mx.x - o.x) * inv.x
  let t3 := (mn.y - o.y) * inv.y
  let t4 := (mx.y - o.y) * inv.y
  let t5 := (mn.z - o.z) * inv.z
  let t6 := (mx.z - o.z) * inv.z
  max (max (min t1 t2) (min t3 t4)) (min t5 t6)

/-- Slab exit parameter `tmax` (cube.rs lines 57-65). -/
def cubeTmax (c : Cube) (o d : Vec3 ℚ) : ℚ :=
  let halfSize := c.size / 2
  let mn := Vec3.sub c.center ⟨halfSize, halfSize, halfSize⟩
  let mx := Vec3.add c.center ⟨halfSize, halfSize, halfSize⟩
  let inv := cubeInvDir d
  let t1 := (mn.x - o.x) * inv.x
  let t2 := (mx.x - o.x) * inv.x
  let t3 := (mn.y - o.y) * inv.y
  let t4 := (mx.y - o.y) * inv.y
  let t5 := (mn.z - o.z) * inv.z
  let t6 := (mx.z - o.z) * inv.z
  min (min (max t1 t2) (max t3 t4)) (max t5 t6)

/-- The chosen ray parameter: `tmin` if positive, else `tmax`
(cube.rs line 77). -/
def cubeT (c : Cube) (o d : Vec3 ℚ) : ℚ :=
  if cubeTmin c o d > 0 then cubeTmin c o d else cubeTmax c o d

/-- Model of `Cube::get_uv` (cube.rs lines 20-41): face-dependent UV with the
0.9 dot-product threshold and the vertical flip `v ↦ 1 - v`. -/
def Cube.getUv (c : Cube) (point normal : Vec3 ℚ) : ℚ × ℚ :=
  let halfSize := c.size / 2
  let localPoint := Vec3.sub point c.center
  if |normal.x| > 9/10 then
    let u := (localPoint.z + halfSize) / c.size
    let v := (localPoint.y + halfSize) / c.size
    (u, 1 - v)
  else if |normal.y| > 9/10 then
    let u := (localPoint.x + halfSize) / c.size
    let v := (localPoint.z + halfSize) / c.size
    (u, 1 - v)
  else
    let u := (localPoint.x + halfSize) / c.size
    let v := (localPoint.y + halfSize) / c.size
    (u, 1 - v)

/-- Model of `Cube::ray_intersect` (cube.rs lines 44-98): slab method, rejection
cases returning the sentinel, largest-component normal selection
(ties broken in check order x, y, z), UV lookup. -/
def Cube.rayIntersect (c : Cube) (o d : Vec3 ℚ) : Intersect :=
  let tmin := cubeTmin c o d
  let tmax := cubeTmax c o d
  if tmax < 0 then Intersect.empty
  else if tmin > tmax then Intersect.empty
  else
    let t := if tmin > 0 then tmin else tmax
    if t ≤ 0 then Intersect.empty
    else
      let point := Vec3.add o (Vec3.smul d t)
      let localPoint := Vec3.sub point c.center
      let normal : Vec3 ℚ :=
        if |localPoint.x| > |localPoint.y| ∧ |localPoint.x| > |localPoint.z| then
          ⟨qSignum localPoint.x, 0, 0⟩
        else if |localPoint.y| > |localPoint.z| then
          ⟨0, qSignum localPoint.y, 0⟩
        else
          ⟨0, 0, qSignum localPoint.z⟩
      let uv := c.getUv point normal
      Intersect.new point normal t c.material uv.1 uv.2

/-- An RGBA color with 8-bit channels (raylib `Color`), channels as `ℕ`. -/
structure Color where
  r : ℕ
  g : ℕ
  b : ℕ
  a : ℕ
deriving DecidableEq, Repr

/-- Modelled from the spec: §3 "Light — position, color, scalar intensity"
(`light.rs` is not among the provided sources; the fields match every use
site in main.rs: `light.position`, `light.color`, `light.intensity`). -/
structure Light where
  position : Vec3 ℚ
  color : Color
  intensity : ℚ
deriving DecidableEq, Repr

/-- The Rust `as u32` cast of a non-negative `f32` texel coordinate:
truncation, saturating at 0 for negative inputs. -/
def ratToTexel (q : ℚ) : ℕ := Int.toNat ⌊q⌋

/-- Frame-constant rendering context: the abstract float primitives
(`f32::sqrt`, `f32::powf`), the sky lookup (spec §6, external), the
texture collaborator (spec §6, external: texel sizes, color lookup,
normal-map lookup), and the light. -/
structure RenderCtx where
  sqrtF : ℚ → ℚ
  powF : ℚ → ℚ → ℚ
  sky : Vec3 ℚ → Vec3 ℚ
  texSize : String → ℕ × ℕ
  getPixelColor : String → ℕ → ℕ → Vec3 ℚ
  getNormalFromMap : String → ℕ → ℕ → Option (Vec3 ℚ)
  light : Light

/-- Model of `offset_origin` (main.rs lines 52-59): nudge the hit point along the
normal by `ORIGIN_BIAS = 1e-4`, away from the surface relative to the
ray being cast. -/
def offsetOrigin (intersect : Intersect) (direction : Vec3 ℚ) : Vec3 ℚ :=
  let offset := Vec3.smul intersect.normal (1/10000)
  if Vec3.dot direction intersect.normal < 0 then
    Vec3.sub intersect.point offset
  else
    Vec3.add intersect.point offset

/-- Model of `reflect` (main.rs lines 61-63): `incident - normal * 2.0 * incident·normal`
with the source's association `(normal * 2.0) * dot`. -/
def reflectV (incident normal : Vec3 ℚ) : Vec3 ℚ :=
  Vec3.sub incident (Vec3.smul (Vec3.smul normal 2) (Vec3.dot incident normal))

/-- The discriminant `k = 1 - eta^2 * (1 - cosi^2)` of `refract`
(main.rs lines 66-79), with the incident cosine clamped to `[-1, 1]`,
and the refractive indices swapped when the ray exits (`cosi > 0`). -/
def refractDiscriminant (incident normal : Vec3 ℚ) (refractiveIndex : ℚ) : ℚ :=
  let cosi := min (max (Vec3.dot incident normal) (-1)) 1
  let etai := if cosi > 0 then refractiveIndex else 1
  let etat := if cosi > 0 then 1 else refractiveIndex
  let cosi2 := if cosi > 0 then cosi else -cosi
  let eta := etai / etat
  1 - eta * eta * (1 - cosi2 * cosi2)

/-- Model of `refract` (main.rs lines 65-86): two-sided Snell refraction; returns
`none` on total internal reflection (`k < 0`). -/
def refractV (sqrtF : ℚ → ℚ) (incident normal : Vec3 ℚ)
    (refractiveIndex : ℚ) : Option (Vec3 ℚ) :=
  let cosi := min (max (Vec3.dot incident normal) (-1)) 1
  let etai := if cosi > 0 then refractiveIndex else 1
  let etat := if cosi > 0 then 1 else refractiveIndex
  let n := if cosi > 0 then Vec3.neg normal else normal
  let cosi2 := if cosi > 0 then cosi else -cosi
  let eta := etai / etat
  let k := refractDiscriminant incident normal refractiveIndex
  if k < 0 then none
  else some (Vec3.add (Vec3.smul incident eta) (Vec3.smul n (eta * cosi2 - sqrtF k)))

/-- Model of `cast_shadow` (main.rs lines 88-106): binary shadow factor — 1 if any
primitive blocks the bias-offset shadow ray before the light, else 0. -/
def castShadow (sqrtF : ℚ → ℚ) (light : Light) (intersect : Intersect)
    (objects : List Cube) : ℚ :=
  let lightDir := Vec3.normalizedF sqrtF (Vec3.sub light.position intersect.point)
  let lightDistance := Vec3.lengthF sqrtF (Vec3.sub light.position intersect.point)
  let shadowRayOrigin := offsetOrigin intersect lightDir
  if objects.any (fun obj =>
      let si := obj.rayIntersect shadowRayOrigin lightDir
      si.isIntersecting && decide (si.distance < lightDistance)) then 1 else 0

/-- The nearest-hit linear scan of `cast_ray` (main.rs lines 121-130):
`zbuffer` starts at `f32::INFINITY`, modelled by `none`; first-encountered
wins on exact distance ties. -/
def castRayScan (objects : List Cube) (o d : Vec3 ℚ) : Intersect :=
  (objects.foldl (fun acc c =>
    let i := c.rayIntersect o d
    if i.isIntersecting && (match acc.2 with
        | none => true
        | some z => decide (i.distance < z)) then (i, some i.distance) else acc)
    ((Intersect.empty, none) : Intersect × Option ℚ)).1

/-- The refraction contribution of `cast_ray` (main.rs lines 195-207),
with the recursive call abstracted as `recurse`: if the transmit albedo
is positive, refract; on total internal reflection fall back to a
mirror-reflected ray from a bias-offset origin. -/
def refractComponent (recurse : Vec3 ℚ → Vec3 ℚ → Vec3 ℚ) (sqrtF : ℚ → ℚ)
    (intersect : Intersect) (rayDirection normal : Vec3 ℚ) : Vec3 ℚ :=
  let transparency := intersect.material.albedo.a3
  if transparency > 0 then
    match refractV sqrtF rayDirection normal intersect.material.refractiveIndex with
    | some refractDir =>
      let refractOrigin := offsetOrigin intersect refractDir
      recurse refractOrigin refractDir
    | none =>
      let reflectDir := Vec3.normalizedF sqrtF (reflectV rayDirection normal)
      let reflectOrigin := offsetOrigin intersect reflectDir
      recurse reflectOrigin reflectDir
  else Vec3.zero

/-- Model of `cast_ray` (main.rs lines 108-210): the central shading recursion.
Depth above 3 returns the sky color; otherwise nearest hit, optional
normal mapping, shadowed Phong shading, and recursive reflection and
refraction contributions at `depth + 1`. -/
def castRay (ctx : RenderCtx) (rayOrigin rayDirection : Vec3 ℚ)
    (objects : List Cube) (depth : ℕ) : Vec3 ℚ :=
  if h : depth > 3 then
    ctx.sky rayDirection
  else
    let intersect := castRayScan objects rayOrigin rayDirection
    if intersect.isIntersecting = false then
      ctx.sky rayDirection
    else
      let lightDir := Vec3.normalizedF ctx.sqrtF (Vec3.sub ctx.light.position intersect.point)
      let viewDir := Vec3.normalizedF ctx.sqrtF (Vec3.sub rayOrigin intersect.point)
      let normal := match intersect.material.normalMapId with
        | some normalMapPath =>
          let wh := ctx.texSize normalMapPath
          let tx := ratToTexel (intersect.u * (wh.1 : ℚ))
          let ty := ratToTexel (intersect.v * (wh.2 : ℚ))
          match ctx.getNormalFromMap normalMapPath tx ty with
          | some texNormal =>
            let tangent := Vec3.normalizedF ctx.sqrtF ⟨intersect.normal.y, -intersect.normal.x, 0⟩
            let bitangent := Vec3.cross intersect.normal tangent
            Vec3.normalizedF ctx.sqrtF
              ⟨texNormal.x * tangent.x + texNormal.y * bitangent.x + texNormal.z * intersect.normal.x,
               texNormal.x * tangent.y + texNormal.y * bitangent.y + texNormal.z * intersect.normal.y,
               texNormal.x * tangent.z + texNormal.y * bitangent.z + texNormal.z * intersect.normal.z⟩
          | none => intersect.normal
        | none => intersect.normal
      let reflectDirL := Vec3.normalizedF ctx.sqrtF (reflectV (Vec3.neg lightDir) normal)
      let shadowIntensity := castShadow ctx.sqrtF ctx.light intersect objects
      let lightIntensity := ctx.light.intensity * (1 - shadowIntensity)
      let diffuseColor := match intersect.material.textureId with
        | some texturePath =>
          let wh := ctx.texSize texturePath
          ctx.getPixelColor texturePath (ratToTexel (intersect.u * (wh.1 : ℚ)))
            (ratToTexel (intersect.v * (wh.2 : ℚ)))
        | none => intersect.material.diffuse
      let diffuseIntensity := max (Vec3.dot normal lightDir) 0 * lightIntensity
      let diffuse := Vec3.smul diffuseColor diffuseIntensity
      let specularIntensity :=
        ctx.powF (max (Vec3.dot viewDir reflectDirL) 0) intersect.material.specular * lightIntensity
      let lightColorV3 : Vec3 ℚ :=
        ⟨(ctx.light.color.r : ℚ) / 255, (ctx.light.color.g : ℚ) / 255, (ctx.light.color.b : ℚ) / 255⟩
      let specular := Vec3.smul lightColorV3 specularIntensity
      let albedo := intersect.material.albedo
      let phongColor := Vec3.add (Vec3.smul diffuse albedo.a0) (Vec3.smul specular albedo.a1)
      let reflectivity := albedo.a2
      let reflectColor :=
        if reflectivity > 0 then
          let rdir := Vec3.normalizedF ctx.sqrtF (reflectV rayDirection normal)
          let rorig := offsetOrigin intersect rdir
          castRay ctx rorig rdir objects (depth + 1)
        else Vec3.zero
      let transparency := albedo.a3
      let refractColor :=
        refractComponent (fun o2 d2 => castRay ctx o2 d2 objects (depth + 1))
          ctx.sqrtF intersect rayDirection normal
      Vec3.add
        (Vec3.add (Vec3.smul phongColor (1 - reflectivity - transparency))
          (Vec3.smul reflectColor reflectivity))
        (Vec3.smul refractColor transparency)
termination_by 4 - depth
decreasing_by
  all_goals omega

/-- Model of `color_to_u32` (framebuffer.rs lines 157-160): pack ARGB channels,
each masked to its 8-bit width. -/
def colorToU32 (c : Color) : ℕ :=
  (c.a % 256) * 16777216 + (c.r % 256) * 65536 + (c.g % 256) * 256 + c.b % 256

/-- Model of `_u32_to_color` (framebuffer.rs lines 163-171): unpack ARGB channels. -/
def u32ToColor (value : ℕ) : Color :=
  ⟨value / 65536 % 256, value / 256 % 256, value % 256, value / 16777216 % 256⟩

/-- The Rust `as u8` cast of a non-negative-ish `f32` channel value:
truncation, saturating at 0 below and 255 above. -/
def ratToU8 (q : ℚ) : ℕ := min 255 (Int.toNat ⌊q⌋)

/-- Model of `Framebuffer` (framebuffer.rs): pixel store is the optimized
`pixel_data` u32 buffer; the mirror `color_buffer` `Image` and the cached
texture belong to the external display collaborator and are not modelled. -/
structure Framebuffer where
  width : ℕ
  height : ℕ
  pixelData : List ℕ
  backgroundColor : Color
  currentColor : Color
  bufferDirty : Bool
deriving DecidableEq, Repr

/-- Model of `Framebuffer::new` (framebuffer.rs lines 18-31). -/
def Framebuffer.new (width height : ℕ) : Framebuffer :=
  { width := width, height := height,
    pixelData := List.replicate (width * height) 0,
    backgroundColor := ⟨0, 0, 0, 255⟩, currentColor := ⟨255, 255, 255, 255⟩,
    bufferDirty := true }

/-- Model of `Framebuffer::clear` (framebuffer.rs lines 33-41): fill the pixel
buffer with the background color. -/
def Framebuffer.clear (fb : Framebuffer) : Framebuffer :=
  { fb with
    pixelData := List.replicate fb.pixelData.length (colorToU32 fb.backgroundColor),
    bufferDirty := true }

/-- Model of `Framebuffer::set_current_color` (framebuffer.rs lines 59-61). -/
def Framebuffer.setCurrentColor (fb : Framebuffer) (c : Color) : Framebuffer :=
  { fb with currentColor := c }

/-- Model of `Framebuffer::set_pixel` (framebuffer.rs lines 43-53): bounds-checked
write of the current color; out-of-bounds coordinates leave the
framebuffer untouched. -/
def Framebuffer.setPixel (fb : Framebuffer) (x y : ℕ) : Framebuffer :=
  if x < fb.width ∧ y < fb.height then
    { fb with
      pixelData := fb.pixelData.set (y * fb.width + x) (colorToU32 fb.currentColor),
      bufferDirty := true }
  else fb

/-- One blended channel of `Framebuffer::blend_pixel`
(framebuffer.rs lines 139-142): `current*(1-alpha) + new*alpha` cast `as u8`. -/
def blendChannel (cur new : ℕ) (alpha : ℚ) : ℕ :=
  ratToU8 ((cur : ℚ) * (1 - alpha) + (new : ℚ) * alpha)

/-- Model of `Framebuffer::blend_pixel` (framebuffer.rs lines 130-153):
bounds-checked alpha blend into the existing pixel; out-of-bounds
coordinates leave the framebuffer untouched. -/
def Framebuffer.blendPixel (fb : Framebuffer) (x y : ℕ) (color : Color) (alpha : ℚ) :
    Framebuffer :=
  if x < fb.width ∧ y < fb.height then
    let index := y * fb.width + x
    if index < fb.pixelData.length then
      let current := u32ToColor (fb.pixelData.getD index 0)
      let blended : Color :=
        ⟨blendChannel current.r color.r alpha, blendChannel current.g color.g alpha,
         blendChannel current.b color.b alpha, blendChannel current.a color.a alpha⟩
      { fb with pixelData := fb.pixelData.set index (colorToU32 blended),
                bufferDirty := true }
    else fb
  else fb

/-- One framebuffer operation of a rendering pass.  `set x y c` merges the
source's `set_current_color(c); set_pixel(x, y)` pair. -/
inductive FbOp where
  | clear : FbOp
  | set (x y : ℕ) (c : Color) : FbOp
  | blend (x y : ℕ) (c : Color) (alpha : ℚ) : FbOp
deriving DecidableEq, Repr

/-- Semantics of one framebuffer operation. -/
def applyOp (fb : Framebuffer) : FbOp → Framebuffer
  | FbOp.clear => fb.clear
  | FbOp.set x y c => (fb.setCurrentColor c).setPixel x y
  | FbOp.blend x y c alpha => fb.blendPixel x y c alpha

/-- Semantics of a rendering pass's trace of framebuffer operations. -/
def applyTrace (fb : Framebuffer) (ops : List FbOp) : Framebuffer :=
  ops.foldl applyOp fb

/-- One darkened channel of `fill_adaptive_block` (main.rs lines 358-363):
`(channel as f32 * edge_factor) as u8`. -/
def scaleChannel (c : ℕ) (factor : ℚ) : ℕ := ratToU8 ((c : ℚ) * factor)

/-- Model of `fill_adaptive_block` (main.rs lines 336-370) as a trace over a
`W × H` framebuffer: splat `color` into a `size × size` block based at
`(baseX, baseY)`, skipping out-of-bounds pixels, darkening the block's
edge pixels by the 0.8 factor. -/
def fillAdaptiveBlockTrace (W H baseX baseY : ℕ) (color : Color) (size : ℕ) :
    List FbOp :=
  (List.range size).flatMap (fun dy =>
    (List.range size).flatMap (fun dx =>
      let px := baseX + dx
      let py := baseY + dy
      if px < W ∧ py < H then
        let edgeFactor : ℚ :=
          if dx = 0 ∨ dy = 0 ∨ dx = size - 1 ∨ dy = size - 1 then 8/10 else 1
        let adjusted : Color :=
          ⟨scaleChannel color.r edgeFactor, scaleChannel color.g edgeFactor,
           scaleChannel color.b edgeFactor, color.a⟩
        [FbOp.set px py adjusted]
      else []))

/-- Model of `render` (main.rs lines 212-248) as a trace: clear, then shade every
pixel in raster order.  `shade` abstracts the frame-constant composition
`vector3_to_color ∘ cast_ray ∘ camera ray setup` at a pixel. -/
def renderTrace (shade : ℕ → ℕ → Color) (W H : ℕ) : List FbOp :=
  FbOp.clear ::
    (List.range H).flatMap (fun y => (List.range W).map (fun x => FbOp.set x y (shade x y)))

/-- Pixel stride per LOD tier (main.rs lines 271-277). -/
def lodStepSize (lod : ℕ) : ℕ :=
  match lod with
  | 1 => 1
  | 2 => 1
  | 3 => 2
  | 4 => 3
  | _ => 4

/-- Jitter offset (main.rs lines 280-284): only LOD 2 jitters, by
`jitter_pattern[2 % 4] = (0, 1)`. -/
def lodJitterOffset (lod : ℕ) : Option (ℕ × ℕ) :=
  match lod with
  | 2 => some (0, 1)
  | _ => none

/-- The writes of one loop iteration of `render_adaptive`
(main.rs lines 286-331): jitter for LOD 2, then direct write (LOD 1),
alpha blend 0.7 (LOD 2), or a 2/3/4-sized block splat (LOD 3/4/other). -/
def adaptivePixelOps (shade : ℕ → ℕ → Color) (W H lod x y : ℕ) : List FbOp :=
  let axy := match lodJitterOffset lod with
    | some (jx, jy) => (min (x + jx) (W - 1), min (y + jy) (H - 1))
    | none => (x, y)
  let c := shade axy.1 axy.2
  match lod with
  | 1 => [FbOp.set axy.1 axy.2 c]
  | 2 => [FbOp.blend axy.1 axy.2 c (7/10)]
  | 3 => fillAdaptiveBlockTrace W H x y c 2
  | 4 => fillAdaptiveBlockTrace W H x y c 3
  | _ => fillAdaptiveBlockTrace W H x y c 4

/-- Model of `render_adaptive` (main.rs lines 250-333) as a trace: clear only when
`lod ≥ 4`; iterate rows and columns at the LOD's stride, emitting each
iteration's writes. -/
def renderAdaptiveTrace (shade : ℕ → ℕ → Color) (W H lod : ℕ) : List FbOp :=
  let stepSize := lodStepSize lod
  (if lod ≥ 4 then [FbOp.clear] else []) ++
    (List.range' 0 ((H + stepSize - 1) / stepSize) stepSize).flatMap (fun y =>
      (List.range' 0 ((W + stepSize - 1) / stepSize) stepSize).flatMap (fun x =>
        adaptivePixelOps shade W H lod x y))

/-- Model of `render_progressive` (main.rs lines 422-473) as a trace: clear only
when the persistent cursor is 0; render the chunk of pixel indices
`[cursor, min (cursor + S) (W*H))` in raster order; return the trace, the
advanced cursor, and the completion flag `cursor' ≥ W*H`. -/
def renderProgressiveTrace (shade : ℕ → ℕ → Color) (W H S cursor : ℕ) :
    List FbOp × ℕ × Bool :=
  let totalPixels := W * H
  let startPixel := cursor
  let endPixel := min (startPixel + S) totalPixels
  let ops :=
    (if cursor = 0 then [FbOp.clear] else []) ++
      (List.range' startPixel (endPixel - startPixel)).map
        (fun i => FbOp.set (i % W) (i / W) (shade (i % W) (i / W)))
  (ops, endPixel, decide (endPixel ≥ totalPixels))

/-- The frame scheduler's per-episode state (main.rs lines 823-829). -/
structure SchedState where
  framesSinceCameraChange : ℕ
  currentLod : ℕ
  targetLod : ℕ
  renderComplete : Bool
  useProgressive : Bool
  currentSample : ℕ
deriving DecidableEq, Repr

/-- The camera-change episode reset (main.rs lines 933-939). -/
def schedCameraReset (s : SchedState) : SchedState :=
  { s with framesSinceCameraChange := 0, useProgressive := false,
           currentLod := 4, targetLod := 1, renderComplete := false }

/-- Conditional reset on the consumed camera dirty flag (main.rs line 933). -/
def schedAfterReset (cameraWasChanged : Bool) (s : SchedState) : SchedState :=
  if cameraWasChanged then schedCameraReset s else s

/-- Gradual LOD improvement every 2 frames (main.rs lines 942-944). -/
def schedAfterLod (s : SchedState) : SchedState :=
  if s.framesSinceCameraChange % 2 = 0 ∧ s.currentLod > s.targetLod then
    { s with currentLod := max (s.currentLod - 1) s.targetLod }
  else s

/-- Frame counter increment (main.rs line 946). -/
def schedAfterTick (s : SchedState) : SchedState :=
  { s with framesSinceCameraChange := s.framesSinceCameraChange + 1 }

/-- Entry into progressive mode (main.rs lines 960-964): on the first
frame past 20, reset the cursor and completion flag and latch
`use_progressive`. -/
def schedProgEnter (s : SchedState) : SchedState :=
  if s.useProgressive = false then
    { s with currentSample := 0, renderComplete := false, useProgressive := true }
  else s

/-- Phase selection and rendering (main.rs lines 949-978): frames ≤ 8
adaptive, frames ≤ 20 one full pass, frames > 20 progressive chunks. -/
def schedPhase (shade : ℕ → ℕ → Color) (W H S : ℕ) (s : SchedState) :
    SchedState × List FbOp :=
  if s.framesSinceCameraChange ≤ 8 then
    (s, renderAdaptiveTrace shade W H s.currentLod)
  else if s.framesSinceCameraChange ≤ 20 then
    if s.renderComplete = false then
      ({ s with renderComplete := true }, renderTrace shade W H)
    else (s, [])
  else
    let s4 := schedProgEnter s
    if s4.renderComplete = false then
      let r := renderProgressiveTrace shade W H S s4.currentSample
      ({ s4 with currentSample := r.2.1, renderComplete := r.2.2 }, r.1)
    else (s4, [])

/-- One frame of the scheduler (main.rs lines 932-978): reset on camera
change, LOD improvement, frame tick, then the phase's rendering pass. -/
def schedStep (shade : ℕ → ℕ → Color) (W H S : ℕ) (cameraWasChanged : Bool)
    (s : SchedState) : SchedState × List FbOp :=
  schedPhase shade W H S (schedAfterTick (schedAfterLod (schedAfterReset cameraWasChanged s)))

/-- Euclidean length over `ℝ` (raylib `Vector3::length`), for the camera
model where exact trigonometry is required. -/
noncomputable def Vec3.lengthR (a : Vec3 ℝ) : ℝ := Real.sqrt (Vec3.dot a a)

/-- Model of `normalized` over `ℝ`: `v / |v|` (division by zero yields the junk
value `0`; the spec makes the zero vector the caller's precondition). -/
noncomputable def Vec3.normalizedR (a : Vec3 ℝ) : Vec3 ℝ :=
  Vec3.smul a (1 / Vec3.lengthR a)

/-- Model of `Camera` (camera.rs): eye, look-at center, up hint, derived basis,
and the consumed-once dirty flag. -/
structure Camera where
  eye : Vec3 ℝ
  center : Vec3 ℝ
  up : Vec3 ℝ
  forward : Vec3 ℝ
  right : Vec3 ℝ
  changed : Bool

/-- Model of `Camera::update_basis_vectors` (camera.rs lines 31-51):
re-orthonormalize `{forward, right, up}` and set the dirty flag. -/
noncomputable def Camera.updateBasisVectors (c : Camera) : Camera :=
  let forward := Vec3.normalizedR (Vec3.sub c.center c.eye)
  let right := Vec3.normalizedR (Vec3.cross forward c.up)
  let up := Vec3.cross right forward
  { c with forward := forward, right := right, up := up, changed := true }

/-- Model of `Camera::new` (camera.rs lines 15-28). -/
noncomputable def Camera.new (eye center up : Vec3 ℝ) : Camera :=
  Camera.updateBasisVectors
    { eye := eye, center := center, up := up,
      forward := Vec3.zero, right := Vec3.zero, changed := true }

/-- Model of `Camera::orbit` (camera.rs lines 54-87): spherical conversion of the
eye-relative-to-center offset, yaw/pitch deltas, pitch clamped to
`±1.5` radians, conversion back to Cartesian, then basis re-derivation.
`atan2F` abstracts `f32::atan2` (the yaw angle; its value never feeds
the pitch computation). -/
noncomputable def Camera.orbit (atan2F : ℝ → ℝ → ℝ) (c : Camera)
    (yaw pitch : ℝ) : Camera :=
  let relativePos := Vec3.sub c.eye c.center
  let radius := Vec3.lengthR relativePos
  let currentYaw := atan2F relativePos.z relativePos.x
  let currentPitch := Real.arcsin (relativePos.y / radius)
  let newYaw := currentYaw + yaw
  let newPitch := min (max (currentPitch + pitch) (-(3/2))) (3/2)
  let cosPitch := Real.cos newPitch
  let newRelativePos : Vec3 ℝ :=
    ⟨radius * cosPitch * Real.cos newYaw,
     radius * Real.sin newPitch,
     radius * cosPitch * Real.sin newYaw⟩
  Camera.updateBasisVectors { c with eye := Vec3.add c.center newRelativePos }

/-- Model of `Camera::zoom` (camera.rs lines 89-93). -/
noncomputable def Camera.zoom (c : Camera) (amount : ℝ) : Camera :=
  let forward := Vec3.normalizedR (Vec3.sub c.center c.eye)
  Camera.updateBasisVectors { c with eye := Vec3.add c.eye (Vec3.smul forward amount) }

/-- Model of `Camera::is_changed` (camera.rs lines 95-99): return and clear the
dirty flag. -/
def Camera.isChanged (c : Camera) : Bool × Camera :=
  (c.changed, { c with changed := false })

/-- Model of `Camera::basis_change` (camera.rs lines 102-129). -/
noncomputable def Camera.basisChange (c : Camera) (v : Vec3 ℝ) : Vec3 ℝ :=
  ⟨v.x * c.right.x + v.y * c.up.x - v.z * c.forward.x,
   v.x * c.right.y + v.y * c.up.y - v.z * c.forward.y,
   v.x * c.right.z + v.y * c.up.z - v.z * c.forward.z⟩

/-- The camera's orbit radius: distance from eye to center. -/
noncomputable def cameraRadius (c : Camera) : ℝ :=
  Vec3.lengthR (Vec3.sub c.eye c.center)

/-- The camera's observed pitch, as the claim measures it: `asin` of the
eye-to-center y offset divided by the radius. -/
noncomputable def cameraPitch (c : Camera) : ℝ :=
  Real.arcsin ((Vec3.sub c.eye c.center).y / cameraRadius c)

/-- A finite sequence of `orbit` calls, applied in order. -/
noncomputable def Camera.orbitFold (atan2F : ℝ → ℝ → ℝ) (c : Camera)
    (ds : List (ℝ × ℝ)) : Camera :=
  ds.foldl (fun cam d => Camera.orbit atan2F cam d.1 d.2) c

/-- Cursor position after `k` scheduler-driven progressive calls starting
from cursor 0: each call stores back `end_pixel` (main.rs line 469). -/
def progCursorAfter (shade : ℕ → ℕ → Color) (W H S : ℕ) : ℕ → ℕ
  | 0 => 0
  | Nat.succ k =>
    (renderProgressiveTrace shade W H S (progCursorAfter shade W H S k)).2.1

/-- The chunk of pixel indices rendered by one progressive call at a
given cursor (main.rs lines 445-449): `[cursor, min (cursor+S) (W*H))`. -/
def progIndices (W H S cursor : ℕ) : List ℕ :=
  List.range' cursor (min (cursor + S) (W * H) - cursor)

/-- All pixel indices rendered across the first `k` progressive calls. -/
def progVisited (shade : ℕ → ℕ → Color) (W H S : ℕ) : ℕ → List ℕ
  | 0 => []
  | Nat.succ k =>
    progVisited shade W H S k ++ progIndices W H S (progCursorAfter shade W H S k)

/-- A concrete rendering context used to evaluate theorems at concrete
inputs: identity-like float primitives, identity sky, trivial textures,
and the white light of main.rs lines 831-835. -/
def sampleCtx : RenderCtx :=
  { sqrtF := fun q => q
    powF := fun q _ => q
    sky := fun v => v
    texSize := fun _ => (1, 1)
    getPixelColor := fun _ _ _ => Vec3.zero
    getNormalFromMap := fun _ _ _ => none
    light := { position := ⟨5, 10, 5⟩, color := ⟨255, 255, 255, 255⟩, intensity := 2 } }

/-- The cube of the spec's intersection test: centered at the origin,
size 2, inert material. -/
def sampleCube : Cube := ⟨⟨0, 0, 0⟩, 2, Material.black⟩

/-- A glass-like material (the shape of `Material::cristal_gema`,
material.rs lines 92-101, without its texture strings): transmit albedo
positive, refractive index 1.5. -/
def sampleGlass : Material :=
  { diffuse := ⟨9/10, 9/10, 1⟩
    albedo := ⟨1/20, 1/10, 8/10, 19/20⟩
    specular := 150
    refractiveIndex := 3/2
    textureId := none
    normalMapId := none }

/-- A hit record on a glass surface with upward normal, used to evaluate
the total-internal-reflection fallback at a concrete input. -/
def sampleGlassHit : Intersect :=
  Intersect.new ⟨0, 0, 0⟩ ⟨0, 1, 0⟩ 1 sampleGlass 0 0

/-- A constant shading function used to evaluate scheduler traces at
concrete inputs. -/
def sampleShade : ℕ → ℕ → Color := fun _ _ => ⟨10, 20, 30, 255⟩

/-! Theorems. -/

/-- C9: for every incident vector and normal, `reflect(I, N)` equals
`I - N * 2*(I·N)`; in particular `reflect((1,-1,0), (0,1,0)) = (1,1,0)`. -/
theorem c9_reflect_law :
    (∀ incident normal : Vec3 ℚ,
      reflectV incident normal =
        Vec3.sub incident (Vec3.smul normal (2 * Vec3.dot incident normal))) ∧
    reflectV ⟨1, -1, 0⟩ ⟨0, 1, 0⟩ = ⟨1, 1, 0⟩ := by
  constructor
  · intro incident normal
    simp only [reflectV, Vec3.sub, Vec3.smul, Vec3.dot, Vec3.mk.injEq]
    refine ⟨by ring, by ring, by ring⟩
  · norm_num [reflectV, Vec3.sub, Vec3.smul, Vec3.dot]

theorem sampleCubeTmin_eval :
    cubeTmin ⟨⟨0,0,0⟩, 2, Material.black⟩ ⟨0,0,5⟩ ⟨0,0,-1⟩ = 4 := by
  norm_num [cubeTmin, cubeInvDir, Vec3.add, Vec3.sub, min_def, max_def]

theorem sampleCubeTmax_eval :
    cubeTmax ⟨⟨0,0,0⟩, 2, Material.black⟩ ⟨0,0,5⟩ ⟨0,0,-1⟩ = 6 := by
  norm_num [cubeTmax, cubeInvDir, Vec3.add, Vec3.sub, min_def, max_def]

/-- C4: the ray from `(0,0,5)` toward `(0,0,-1)` against the cube centered
at the origin with size 2 hits at distance `t = 4`, point `(0,0,1)`,
outward unit normal `(0,0,1)`. -/
theorem c4_cube_axis_hit :
    (Cube.rayIntersect ⟨⟨0,0,0⟩, 2, Material.black⟩ ⟨0,0,5⟩ ⟨0,0,-1⟩).isIntersecting = true ∧
    (Cube.rayIntersect ⟨⟨0,0,0⟩, 2, Material.black⟩ ⟨0,0,5⟩ ⟨0,0,-1⟩).distance = 4 ∧
    (Cube.rayIntersect ⟨⟨0,0,0⟩, 2, Material.black⟩ ⟨0,0,5⟩ ⟨0,0,-1⟩).point = ⟨0,0,1⟩ ∧
    (Cube.rayIntersect ⟨⟨0,0,0⟩, 2, Material.black⟩ ⟨0,0,5⟩ ⟨0,0,-1⟩).normal = ⟨0,0,1⟩ := by
  have main : Cube.rayIntersect ⟨⟨0,0,0⟩, 2, Material.black⟩ ⟨0,0,5⟩ ⟨0,0,-1⟩ =
      Intersect.new ⟨0,0,1⟩ ⟨0,0,1⟩ 4 Material.black (1/2) (1/2) := by
    rw [Cube.rayIntersect, sampleCubeTmin_eval, sampleCubeTmax_eval]
    norm_num [Vec3.add, Vec3.sub, Vec3.smul, qSignum, Cube.getUv, Intersect.new]
  rw [main]
  exact ⟨rfl, rfl, rfl, rfl⟩

/-- C8: whenever the scheduler sees the camera-change flag true, the
episode reset sets `frames_since_camera_change` to 0, `current_lod` to 4,
`render_complete` to false and leaves progressive mode, regardless of the
prior episode state. -/
theorem c8_camera_reset (s : SchedState) :
    (schedAfterReset true s).framesSinceCameraChange = 0 ∧
    (schedAfterReset true s).currentLod = 4 ∧
    (schedAfterReset true s).renderComplete = false ∧
    (schedAfterReset true s).useProgressive = false := by
  simp [schedAfterReset, schedCameraReset]

/-- C3: at any depth above 3 (in particular depth 4), `cast_ray` returns
the sky color of the ray direction and is independent of the scene's
primitive list — it intersects nothing, so the recursion is bounded at
depth 4 (the embedding itself is total by well-founded recursion on
`4 - depth`). -/
theorem c3_depth_limit (ctx : RenderCtx) (o d : Vec3 ℚ)
    (objects objects2 : List Cube) (depth : ℕ) (h : depth > 3) :
    castRay ctx o d objects depth = ctx.sky d ∧
    castRay ctx o d objects depth = castRay ctx o d objects2 depth := by
  constructor
  · rw [castRay]
    simp [h]
  · rw [castRay, castRay]
    simp [h]

/-- Witness for `c3_depth_limit`: depth 4, concrete context, ray, scene. -/
theorem c3_depth_limit_witness :
    4 > 3 ∧
    castRay sampleCtx ⟨0,0,5⟩ ⟨0,0,-1⟩ [sampleCube] 4 = sampleCtx.sky ⟨0,0,-1⟩ ∧
    castRay sampleCtx ⟨0,0,5⟩ ⟨0,0,-1⟩ [sampleCube] 4 =
      castRay sampleCtx ⟨0,0,5⟩ ⟨0,0,-1⟩ [] 4 :=
  ⟨by decide,
   (c3_depth_limit sampleCtx ⟨0,0,5⟩ ⟨0,0,-1⟩ [sampleCube] [] 4 (by decide)).1,
   (c3_depth_limit sampleCtx ⟨0,0,5⟩ ⟨0,0,-1⟩ [sampleCube] [] 4 (by decide)).2⟩

/-- C5: `ray_intersect` never divides by a near-zero direction component
(the `1e6` inverse is substituted), and every rejection case — `tmax < 0`,
`tmin > tmax`, or chosen `t ≤ 0` — returns the no-hit sentinel, whose hit
flag is false, geometric fields zero, and material the valid inert
zero-albedo placeholder; on every input the result is either that
sentinel or a hit (the embedding is total, so no panic is possible). -/
theorem c5_no_hit_sentinel (c : Cube) (o d : Vec3 ℚ) :
    ((|d.x| < 1/1000000 → (cubeInvDir d).x = 1000000) ∧
     (|d.y| < 1/1000000 → (cubeInvDir d).y = 1000000) ∧
     (|d.z| < 1/1000000 → (cubeInvDir d).z = 1000000)) ∧
    (cubeTmax c o d < 0 ∨ cubeTmin c o d > cubeTmax c o d ∨ cubeT c o d ≤ 0 →
      Cube.rayIntersect c o d = Intersect.empty) ∧
    (Cube.rayIntersect c o d = Intersect.empty ∨
      (Cube.rayIntersect c o d).isIntersecting = true) ∧
    (Intersect.empty.isIntersecting = false ∧
     Intersect.empty.point = Vec3.zero ∧
     Intersect.empty.normal = Vec3.zero ∧
     Intersect.empty.distance = 0 ∧
     Intersect.empty.material = Material.black ∧
     Material.black.albedo = ⟨0, 0, 0, 0⟩) := by
  refine ⟨⟨fun h => by simp only [cubeInvDir]; rw [if_pos h],
           fun h => by simp only [cubeInvDir]; rw [if_pos h],
           fun h => by simp only [cubeInvDir]; rw [if_pos h]⟩, ?_, ?_,
          ⟨rfl, rfl, rfl, rfl, rfl, rfl⟩⟩
  · intro hrej
    rw [Cube.rayIntersect]
    rcases hrej with h1 | h2 | h3
    · simp [h1]
    · by_cases h1 : cubeTmax c o d < 0
      · simp [h1]
      · simp [h1, h2]
    · by_cases h1 : cubeTmax c o d < 0
      · simp [h1]
      · by_cases h2 : cubeTmin c o d > cubeTmax c o d
        · simp [h1, h2]
        · simp only [cubeT] at h3
          simp [h1, h2, h3]
  · rw [Cube.rayIntersect]
    simp only []
    split_ifs <;> simp [Intersect.new]

/-- Witness for `c5_no_hit_sentinel`: the cube at the origin is entirely
behind a ray leaving it along `+z`, so `tmax < 0` and the sentinel is
returned. -/
theorem c5_no_hit_sentinel_witness :
    (cubeTmax sampleCube ⟨0,0,5⟩ ⟨0,0,1⟩ < 0 ∨
     cubeTmin sampleCube ⟨0,0,5⟩ ⟨0,0,1⟩ > cubeTmax sampleCube ⟨0,0,5⟩ ⟨0,0,1⟩ ∨
     cubeT sampleCube ⟨0,0,5⟩ ⟨0,0,1⟩ ≤ 0) ∧
    Cube.rayIntersect sampleCube ⟨0,0,5⟩ ⟨0,0,1⟩ = Intersect.empty := by
  have htmax : cubeTmax sampleCube ⟨0,0,5⟩ ⟨0,0,1⟩ < 0 := by
    norm_num [cubeTmax, cubeInvDir, Vec3.add, Vec3.sub, sampleCube, min_def, max_def]
  exact ⟨Or.inl htmax, (c5_no_hit_sentinel sampleCube ⟨0,0,5⟩ ⟨0,0,1⟩).2.1 (Or.inl htmax)⟩

/-- C6: `refract` returns none exactly when the discriminant
`k = 1 - eta^2*(1 - cos^2 θ)` — computed with the incident cosine clamped
to `[-1,1]` and the indices swapped and normal flipped on exit — is
negative; and whenever the transmit albedo is positive and `refract`
returns none, the refraction contribution casts the mirror-reflected ray
from a bias-offset origin through the recursion continuation instead. -/
theorem c6_tir_fallback (sqrtF : ℚ → ℚ) :
    (∀ (incident normal : Vec3 ℚ) (refractiveIndex : ℚ),
      refractV sqrtF incident normal refractiveIndex = none ↔
        refractDiscriminant incident normal refractiveIndex < 0) ∧
    (∀ (recurse : Vec3 ℚ → Vec3 ℚ → Vec3 ℚ) (intersect : Intersect)
        (rayDirection normal : Vec3 ℚ),
      intersect.material.albedo.a3 > 0 →
      refractV sqrtF rayDirection normal intersect.material.refractiveIndex = none →
      refractComponent recurse sqrtF intersect rayDirection normal =
        recurse
          (offsetOrigin intersect (Vec3.normalizedF sqrtF (reflectV rayDirection normal)))
          (Vec3.normalizedF sqrtF (reflectV rayDirection normal))) := by
  constructor
  · intro incident normal refractiveIndex
    simp only [refractV]
    split_ifs with hk
    · simpa using hk
    · simp [hk]
  · intro recurse intersect rayDirection normal ha hn
    simp only [refractComponent, hn, if_pos ha]

/-- Witness for `c6_tir_fallback`: a grazing exit ray on the glass-like
material (refractive index 1.5) has discriminant `-49991/40000 < 0`, so
refraction fails and the reflected fallback is taken. -/
theorem c6_tir_fallback_witness :
    ((refractV id ⟨1, 1/100, 0⟩ ⟨0, 1, 0⟩ (3/2) = none ↔
       refractDiscriminant ⟨1, 1/100, 0⟩ ⟨0, 1, 0⟩ (3/2) < 0) ∧
     sampleGlassHit.material.albedo.a3 > 0 ∧
     refractV id ⟨1, 1/100, 0⟩ ⟨0, 1, 0⟩ sampleGlassHit.material.refractiveIndex = none) ∧
    refractComponent (fun o2 d2 => Vec3.add o2 d2) id sampleGlassHit ⟨1, 1/100, 0⟩ ⟨0, 1, 0⟩ =
      Vec3.add
        (offsetOrigin sampleGlassHit (Vec3.normalizedF id (reflectV ⟨1, 1/100, 0⟩ ⟨0, 1, 0⟩)))
        (Vec3.normalizedF id (reflectV ⟨1, 1/100, 0⟩ ⟨0, 1, 0⟩)) := by
  have hior : sampleGlassHit.material.refractiveIndex = 3/2 := rfl
  have ha : sampleGlassHit.material.albedo.a3 > 0 := by
    norm_num [sampleGlassHit, sampleGlass, Intersect.new]
  have hdisc : refractDiscriminant ⟨1, 1/100, 0⟩ ⟨0, 1, 0⟩ (3/2) < 0 := by
    norm_num [refractDiscriminant, Vec3.dot, min_def, max_def]
  have hnone : refractV id ⟨1, 1/100, 0⟩ ⟨0, 1, 0⟩ (3/2) = none :=
    ((c6_tir_fallback id).1 ⟨1, 1/100, 0⟩ ⟨0, 1, 0⟩ (3/2)).mpr hdisc
  refine ⟨⟨(c6_tir_fallback id).1 ⟨1, 1/100, 0⟩ ⟨0, 1, 0⟩ (3/2), ha, by rw [hior]; exact hnone⟩, ?_⟩
  exact (c6_tir_fallback id).2 (fun o2 d2 => Vec3.add o2 d2) sampleGlassHit
    ⟨1, 1/100, 0⟩ ⟨0, 1, 0⟩ ha (by rw [hior]; exact hnone)

theorem ceilDiv_le_iff (T S j : ℕ) (hS : 0 < S) :
    (T + S - 1) / S ≤ j ↔ T ≤ j * S := by
  have h1 : (T + S - 1) / S ≤ j ↔ ¬ (j + 1 ≤ (T + S - 1) / S) := by omega
  rw [h1, Nat.le_div_iff_mul_le hS, add_one_mul]
  generalize j * S = A
  omega

theorem renderProgressiveTrace_cursor (shade : ℕ → ℕ → Color) (W H S c : ℕ) :
    (renderProgressiveTrace shade W H S c).2.1 = min (c + S) (W * H) := rfl

theorem renderProgressiveTrace_flag (shade : ℕ → ℕ → Color) (W H S c : ℕ) :
    (renderProgressiveTrace shade W H S c).2.2 =
      decide (min (c + S) (W * H) ≥ W * H) := rfl

theorem progCursorAfter_eq (shade : ℕ → ℕ → Color) (W H S : ℕ) (k : ℕ) :
    progCursorAfter shade W H S k = min (k * S) (W * H) := by
  induction k with
  | zero => simp [progCursorAfter]
  | succ n ih =>
    rw [progCursorAfter, renderProgressiveTrace_cursor, ih, Nat.succ_mul]
    generalize n * S = A
    omega

theorem progVisited_eq (shade : ℕ → ℕ → Color) (W H S : ℕ) (k : ℕ) :
    progVisited shade W H S k = List.range' 0 (min (k * S) (W * H)) := by
  induction k with
  | zero => simp [progVisited]
  | succ n ih =>
    rw [progVisited, ih, progCursorAfter_eq, progIndices]
    have hle : min (n * S) (W * H) ≤ min (min (n * S) (W * H) + S) (W * H) := by
      generalize n * S = A
      omega
    have happ := List.range'_append_1 0 (min (n * S) (W * H))
      (min (min (n * S) (W * H) + S) (W * H) - min (n * S) (W * H))
    rw [Nat.zero_add] at happ
    rw [happ]
    have harith : min (min (n * S) (W * H) + S) (W * H) - min (n * S) (W * H) +
        min (n * S) (W * H) = min ((n + 1) * S) (W * H) := by
      rw [add_one_mul]
      generalize n * S = A
      omega
    rw [harith]

/-- C2: from cursor 0 with chunk budget `S ≥ 1` on a nonempty `W×H`
framebuffer, each progressive call renders the chunk
`[cursor, min (cursor+S) (W*H))` in raster order (clearing only at
cursor 0); the completion flag is false on every call before the
`⌈W*H/S⌉`-th and true on the `⌈W*H/S⌉`-th call exactly, and across those
calls every pixel index in `[0, W*H)` is rendered exactly once, in
order. -/
theorem c2_progressive_completion (shade : ℕ → ℕ → Color) (W H S : ℕ)
    (hS : 1 ≤ S) (hT : 0 < W * H) :
    (∀ cursor, (renderProgressiveTrace shade W H S cursor).1 =
      (if cursor = 0 then [FbOp.clear] else []) ++
        (progIndices W H S cursor).map
          (fun i => FbOp.set (i % W) (i / W) (shade (i % W) (i / W)))) ∧
    (∀ k, k + 1 < (W * H + S - 1) / S →
      (renderProgressiveTrace shade W H S (progCursorAfter shade W H S k)).2.2 = false) ∧
    (renderProgressiveTrace shade W H S
        (progCursorAfter shade W H S ((W * H + S - 1) / S - 1))).2.2 = true ∧
    progVisited shade W H S ((W * H + S - 1) / S) = List.range (W * H) ∧
    1 ≤ (W * H + S - 1) / S := by
  have hS0 : 0 < S := by omega
  have hN : 1 ≤ (W * H + S - 1) / S := by
    rw [Nat.le_div_iff_mul_le hS0]
    omega
  refine ⟨fun cursor => rfl, ?_, ?_, ?_, hN⟩
  · intro k hk
    rw [renderProgressiveTrace_flag, progCursorAfter_eq]
    have h1 : ¬ (W * H ≤ (k + 1) * S) := by
      intro hc
      have := (ceilDiv_le_iff (W * H) S (k + 1) hS0).mpr hc
      omega
    rw [add_one_mul] at h1
    simp only [decide_eq_false_iff_not]
    generalize k * S = A at h1 ⊢
    omega
  · rw [renderProgressiveTrace_flag, progCursorAfter_eq]
    have hNS : W * H ≤ ((W * H + S - 1) / S) * S :=
      (ceilDiv_le_iff (W * H) S _ hS0).mp (le_refl _)
    obtain ⟨m, hm⟩ : ∃ m, (W * H + S - 1) / S = m + 1 :=
      ⟨(W * H + S - 1) / S - 1, by omega⟩
    rw [hm]
    rw [hm, add_one_mul] at hNS
    simp only [Nat.add_sub_cancel, decide_eq_true_eq]
    generalize m * S = A at hNS ⊢
    omega
  · rw [progVisited_eq]
    have hNS : W * H ≤ ((W * H + S - 1) / S) * S :=
      (ceilDiv_le_iff (W * H) S _ hS0).mp (le_refl _)
    have hmin : min (((W * H + S - 1) / S) * S) (W * H) = W * H := by
      generalize ((W * H + S - 1) / S) * S = A at hNS ⊢
      omega
    rw [hmin]
    exact (List.range_eq_range' _).symm

/-- Witness for `c2_progressive_completion`: a 2×2 framebuffer with chunk
budget 3 completes on call `⌈4/3⌉ = 2` having visited all 4 pixels. -/
theorem c2_progressive_completion_witness :
    (1 ≤ 3 ∧ 0 < 2 * 2) ∧
    (renderProgressiveTrace sampleShade 2 2 3
        (progCursorAfter sampleShade 2 2 3 ((2 * 2 + 3 - 1) / 3 - 1))).2.2 = true ∧
    progVisited sampleShade 2 2 3 ((2 * 2 + 3 - 1) / 3) = List.range (2 * 2) :=
  ⟨⟨by decide, by decide⟩,
   (c2_progressive_completion sampleShade 2 2 3 (by decide) (by decide)).2.2.1,
   (c2_progressive_completion sampleShade 2 2 3 (by decide) (by decide)).2.2.2.1⟩

theorem fillAdaptiveBlockTrace_mem {W H baseX baseY : ℕ} {color : Color}
    {size : ℕ} {op : FbOp}
    (hop : op ∈ fillAdaptiveBlockTrace W H baseX baseY color size) :
    ∃ px py c2, op = FbOp.set px py c2 ∧ px < W ∧ py < H ∧
      baseX ≤ px ∧ px < baseX + size ∧ baseY ≤ py ∧ py < baseY + size := by
  simp only [fillAdaptiveBlockTrace, List.mem_flatMap, List.mem_range] at hop
  obtain ⟨dy, hdy, dx, hdx, hmem⟩ := hop
  by_cases hb : baseX + dx < W ∧ baseY + dy < H
  · rw [if_pos hb] at hmem
    simp only [List.mem_singleton] at hmem
    exact ⟨baseX + dx, baseY + dy, _, hmem, hb.1, hb.2,
      by omega, by omega, by omega, by omega⟩
  · rw [if_neg hb] at hmem
    simp at hmem

/-- C10: out-of-bounds coordinates leave `set_pixel` and `blend_pixel`
as no-ops on the framebuffer (the embedding is total, so neither can
panic), and every write emitted by `fill_adaptive_block` is an in-bounds
pixel of its block — splats overlapping the right/bottom edges are
silently truncated. -/
theorem c10_bounds_safety :
    (∀ (fb : Framebuffer) (x y : ℕ) (c : Color) (alpha : ℚ),
      fb.width ≤ x ∨ fb.height ≤ y →
      fb.setPixel x y = fb ∧ fb.blendPixel x y c alpha = fb) ∧
    (∀ (W H baseX baseY : ℕ) (color : Color) (size : ℕ) (op : FbOp),
      op ∈ fillAdaptiveBlockTrace W H baseX baseY color size →
      ∃ px py c2, op = FbOp.set px py c2 ∧ px < W ∧ py < H ∧
        baseX ≤ px ∧ px < baseX + size ∧ baseY ≤ py ∧ py < baseY + size) := by
  constructor
  · intro fb x y c alpha hoob
    have hcond : ¬ (x < fb.width ∧ y < fb.height) := by omega
    constructor
    · rw [Framebuffer.setPixel, if_neg hcond]
    · rw [Framebuffer.blendPixel, if_neg hcond]
  · intro W H baseX baseY color size op hop
    exact fillAdaptiveBlockTrace_mem hop

/-- Witness for `c10_bounds_safety`: pixel (5,0) is out of bounds on a
2×2 framebuffer and both writes are no-ops; the 2×2 block based at (1,1)
overlaps the framebuffer edge and emits only its single in-bounds pixel. -/
theorem c10_bounds_safety_witness :
    ((Framebuffer.new 2 2).width ≤ 5 ∨ (Framebuffer.new 2 2).height ≤ 0) ∧
    (Framebuffer.new 2 2).setPixel 5 0 = Framebuffer.new 2 2 ∧
    (Framebuffer.new 2 2).blendPixel 5 0 ⟨1, 2, 3, 4⟩ (7/10) = Framebuffer.new 2 2 ∧
    (FbOp.set 1 1 ⟨scaleChannel 10 (8/10), scaleChannel 20 (8/10),
        scaleChannel 30 (8/10), 255⟩ ∈
      fillAdaptiveBlockTrace 2 2 1 1 ⟨10, 20, 30, 255⟩ 2) ∧
    (∃ px py c2,
      FbOp.set 1 1 ⟨scaleChannel 10 (8/10), scaleChannel 20 (8/10),
          scaleChannel 30 (8/10), 255⟩ = FbOp.set px py c2 ∧
      px < 2 ∧ py < 2 ∧ 1 ≤ px ∧ px < 1 + 2 ∧ 1 ≤ py ∧ py < 1 + 2) := by
  have hoob : (Framebuffer.new 2 2).width ≤ 5 ∨ (Framebuffer.new 2 2).height ≤ 0 :=
    Or.inl (by norm_num [Framebuffer.new])
  have h1 := c10_bounds_safety.1 (Framebuffer.new 2 2) 5 0 ⟨1, 2, 3, 4⟩ (7/10) hoob
  have hmem : FbOp.set 1 1 ⟨scaleChannel 10 (8/10), scaleChannel 20 (8/10),
      scaleChannel 30 (8/10), 255⟩ ∈ fillAdaptiveBlockTrace 2 2 1 1 ⟨10, 20, 30, 255⟩ 2 := by
    simp [fillAdaptiveBlockTrace, List.range_succ]
  exact ⟨hoob, h1.1, h1.2, hmem,
    c10_bounds_safety.2 2 2 1 1 ⟨10, 20, 30, 255⟩ 2 _ hmem⟩

theorem clear_not_mem_fillAdaptiveBlockTrace (W H baseX baseY : ℕ)
    (color : Color) (size : ℕ) :
    FbOp.clear ∉ fillAdaptiveBlockTrace W H baseX baseY color size := by
  intro h
  obtain ⟨px, py, c2, heq, -⟩ := fillAdaptiveBlockTrace_mem h
  exact FbOp.noConfusion heq

theorem clear_not_mem_adaptivePixelOps (shade : ℕ → ℕ → Color)
    (W H lod x y : ℕ) :
    FbOp.clear ∉ adaptivePixelOps shade W H lod x y := by
  match lod with
  | 0 => exact clear_not_mem_fillAdaptiveBlockTrace _ _ _ _ _ _
  | 1 => simp [adaptivePixelOps]
  | 2 => simp [adaptivePixelOps]
  | 3 => exact clear_not_mem_fillAdaptiveBlockTrace _ _ _ _ _ _
  | 4 => exact clear_not_mem_fillAdaptiveBlockTrace _ _ _ _ _ _
  | (n + 5) => exact clear_not_mem_fillAdaptiveBlockTrace _ _ _ _ _ _

theorem clear_mem_renderAdaptiveTrace (shade : ℕ → ℕ → Color) (W H lod : ℕ) :
    FbOp.clear ∈ renderAdaptiveTrace shade W H lod ↔ 4 ≤ lod := by
  have hbody : FbOp.clear ∉
      (List.range' 0 ((H + lodStepSize lod - 1) / lodStepSize lod)
          (lodStepSize lod)).flatMap (fun y =>
        (List.range' 0 ((W + lodStepSize lod - 1) / lodStepSize lod)
            (lodStepSize lod)).flatMap (fun x =>
          adaptivePixelOps shade W H lod x y)) := by
    intro h
    simp only [List.mem_flatMap] at h
    obtain ⟨y, -, x, -, hop⟩ := h
    exact clear_not_mem_adaptivePixelOps shade W H lod x y hop
  rw [renderAdaptiveTrace]
  by_cases h4 : 4 ≤ lod
  · simp [h4, List.mem_append]
  · have h4' : ¬ (lod ≥ 4) := h4
    simp only [h4', if_false, List.nil_append]
    exact iff_of_false hbody not_false

theorem clear_mem_renderProgressiveTrace (shade : ℕ → ℕ → Color)
    (W H S c : ℕ) :
    FbOp.clear ∈ (renderProgressiveTrace shade W H S c).1 ↔ c = 0 := by
  simp only [renderProgressiveTrace, List.mem_append, List.mem_map]
  by_cases hc : c = 0
  · simp [hc]
  · simp [hc]

/-- C1 (amended): during a scheduler-driven episode, the step's rendering
pass clears the pixel buffer exactly when it is (a) an adaptive pass
(frames 1-8) with `lod ≥ 4`, or (b) the full-resolution pass of frames
9-20 — `render` begins by clearing unconditionally, contrary to the
original claim — or (c) a progressive call whose cursor is 0. -/
theorem c1_clear_policy (shade : ℕ → ℕ → Color) (W H S : ℕ)
    (cameraWasChanged : Bool) (s : SchedState) :
    FbOp.clear ∈ (schedStep shade W H S cameraWasChanged s).2 ↔
      ((schedAfterTick (schedAfterLod (schedAfterReset cameraWasChanged
          s))).framesSinceCameraChange ≤ 8 ∧
        4 ≤ (schedAfterTick (schedAfterLod (schedAfterReset cameraWasChanged
          s))).currentLod) ∨
      (8 < (schedAfterTick (schedAfterLod (schedAfterReset cameraWasChanged
          s))).framesSinceCameraChange ∧
        (schedAfterTick (schedAfterLod (schedAfterReset cameraWasChanged
          s))).framesSinceCameraChange ≤ 20 ∧
        (schedAfterTick (schedAfterLod (schedAfterReset cameraWasChanged
          s))).renderComplete = false) ∨
      (20 < (schedAfterTick (schedAfterLod (schedAfterReset cameraWasChanged
          s))).framesSinceCameraChange ∧
        (schedProgEnter (schedAfterTick (schedAfterLod (schedAfterReset
          cameraWasChanged s)))).renderComplete = false ∧
        (schedProgEnter (schedAfterTick (schedAfterLod (schedAfterReset
          cameraWasChanged s)))).currentSample = 0) := by
  rw [schedStep, schedPhase]
  generalize schedAfterTick (schedAfterLod (schedAfterReset cameraWasChanged s)) = s3
  by_cases h8 : s3.framesSinceCameraChange ≤ 8
  · rw [if_pos h8]
    rw [clear_mem_renderAdaptiveTrace]
    constructor
    · intro h
      exact Or.inl ⟨h8, h⟩
    · rintro (⟨-, h⟩ | ⟨hc, -, -⟩ | ⟨hc, -, -⟩)
      · exact h
      · omega
      · omega
  · by_cases h20 : s3.framesSinceCameraChange ≤ 20
    · rw [if_neg h8, if_pos h20]
      by_cases hrc : s3.renderComplete = false
      · rw [if_pos hrc]
        constructor
        · intro _
          exact Or.inr (Or.inl ⟨by omega, h20, hrc⟩)
        · intro _
          rw [renderTrace]
          exact List.mem_cons_self _ _
      · rw [if_neg hrc]
        constructor
        · intro h
          simp at h
        · rintro (⟨hc, -⟩ | ⟨-, -, hc⟩ | ⟨hc, -, -⟩)
          · omega
          · exact absurd hc hrc
          · omega
    · rw [if_neg h8, if_neg h20]
      by_cases hrc : (schedProgEnter s3).renderComplete = false
      · rw [if_pos hrc]
        rw [clear_mem_renderProgressiveTrace]
        constructor
        · intro h0
          exact Or.inr (Or.inr ⟨by omega, hrc, h0⟩)
        · rintro (⟨hc, -⟩ | ⟨-, hc, -⟩ | ⟨-, -, h0⟩)
          · omega
          · omega
          · exact h0
      · rw [if_neg hrc]
        constructor
        · intro h
          simp at h
        · rintro (⟨hc, -⟩ | ⟨-, hc, -⟩ | ⟨-, hc, -⟩)
          · omega
          · omega
          · exact absurd hc hrc

/-- C1 counterexample: with no camera change, an episode whose frame
counter reaches 9 on this step (the full-resolution pass of frames 9-20,
`render_complete` still false, LOD already 1, progressive mode off) emits
a buffer clear, although the step is neither an adaptive pass with
`lod ≥ 4` nor a progressive step with cursor 0 — refuting the claim that
only those two passes clear. -/
theorem c1_clear_policy_counterexample :
    FbOp.clear ∈ (schedStep sampleShade 2 2 1 false
      ⟨8, 1, 1, false, false, 0⟩).2 ∧
    (schedAfterTick (schedAfterLod (schedAfterReset false
      (⟨8, 1, 1, false, false, 0⟩ : SchedState)))).framesSinceCameraChange = 9 ∧
    ¬ ((schedAfterTick (schedAfterLod (schedAfterReset false
      (⟨8, 1, 1, false, false, 0⟩ : SchedState)))).framesSinceCameraChange ≤ 8 ∧
       4 ≤ (schedAfterTick (schedAfterLod (schedAfterReset false
      (⟨8, 1, 1, false, false, 0⟩ : SchedState)))).currentLod) ∧
    (schedAfterTick (schedAfterLod (schedAfterReset false
      (⟨8, 1, 1, false, false, 0⟩ : SchedState)))).framesSinceCameraChange ≤ 20 := by
  refine ⟨?_, by decide, by decide, by decide⟩
  rw [schedStep, schedPhase]
  have h9 : (schedAfterTick (schedAfterLod (schedAfterReset false
      (⟨8, 1, 1, false, false, 0⟩ : SchedState)))).framesSinceCameraChange = 9 := by
    decide
  rw [if_neg (by omega), if_pos (by omega)]
  rw [if_pos (by decide)]
  rw [renderTrace]
  exact List.mem_cons_self _ _

theorem Camera.orbitFold_nil (f : ℝ → ℝ → ℝ) (c : Camera) :
    Camera.orbitFold f c [] = c := rfl

theorem Camera.orbitFold_cons (f : ℝ → ℝ → ℝ) (c : Camera) (d : ℝ × ℝ)
    (tail : List (ℝ × ℝ)) :
    Camera.orbitFold f c (d :: tail) =
      Camera.orbitFold f (Camera.orbit f c d.1 d.2) tail := by
  rw [Camera.orbitFold, Camera.orbitFold, List.foldl_cons]

theorem orbit_pitch_clamped (f : ℝ → ℝ → ℝ) (c : Camera) (yaw pitch : ℝ)
    (h : 0 < cameraRadius c) :
    cameraRadius (Camera.orbit f c yaw pitch) = cameraRadius c ∧
    -(3/2) ≤ cameraPitch (Camera.orbit f c yaw pitch) ∧
    cameraPitch (Camera.orbit f c yaw pitch) ≤ 3/2 := by
  have hR : 0 < Vec3.lengthR (Vec3.sub c.eye c.center) := h
  have hR0 : 0 ≤ Vec3.lengthR (Vec3.sub c.eye c.center) := le_of_lt hR
  set R := Vec3.lengthR (Vec3.sub c.eye c.center) with hRdef
  set NY := f (Vec3.sub c.eye c.center).z (Vec3.sub c.eye c.center).x + yaw with hNY
  set NP := min (max (Real.arcsin ((Vec3.sub c.eye c.center).y / R) + pitch)
    (-(3/2))) (3/2) with hNP
  have hNP_le : NP ≤ 3/2 := min_le_right _ _
  have hNP_ge : -(3/2) ≤ NP := le_min (le_max_right _ _) (by norm_num)
  have hpi : (3:ℝ)/2 < Real.pi / 2 := by
    have h3 := Real.pi_gt_three
    linarith
  have hcancel : ∀ a v : Vec3 ℝ, Vec3.sub (Vec3.add a v) a = v := by
    intro a v
    obtain ⟨vx, vy, vz⟩ := v
    simp only [Vec3.sub, Vec3.add, Vec3.mk.injEq]
    refine ⟨by ring, by ring, by ring⟩
  have he : (Camera.orbit f c yaw pitch).eye =
      Vec3.add c.center
        ⟨R * Real.cos NP * Real.cos NY, R * Real.sin NP,
         R * Real.cos NP * Real.sin NY⟩ := rfl
  have hc : (Camera.orbit f c yaw pitch).center = c.center := rfl
  have heye : Vec3.sub (Camera.orbit f c yaw pitch).eye
      (Camera.orbit f c yaw pitch).center =
      ⟨R * Real.cos NP * Real.cos NY, R * Real.sin NP,
       R * Real.cos NP * Real.sin NY⟩ := by
    rw [he, hc, hcancel]
  have hdot : Vec3.dot
      (⟨R * Real.cos NP * Real.cos NY, R * Real.sin NP,
        R * Real.cos NP * Real.sin NY⟩ : Vec3 ℝ)
      ⟨R * Real.cos NP * Real.cos NY, R * Real.sin NP,
        R * Real.cos NP * Real.sin NY⟩ = R ^ 2 := by
    simp only [Vec3.dot]
    linear_combination (R ^ 2 * Real.cos NP ^ 2) * Real.sin_sq_add_cos_sq NY +
      R ^ 2 * Real.sin_sq_add_cos_sq NP
  have hlen : Vec3.lengthR
      ⟨R * Real.cos NP * Real.cos NY, R * Real.sin NP,
        R * Real.cos NP * Real.sin NY⟩ = R := by
    rw [Vec3.lengthR, hdot, Real.sqrt_sq hR0]
  have hrad : cameraRadius (Camera.orbit f c yaw pitch) = R := by
    rw [cameraRadius, heye, hlen]
  have hpitch : cameraPitch (Camera.orbit f c yaw pitch) = NP := by
    rw [cameraPitch, cameraRadius, heye, hlen]
    have hy : R * Real.sin NP / R = Real.sin NP :=
      mul_div_cancel_left₀ _ (ne_of_gt hR)
    rw [hy]
    exact Real.arcsin_sin (by linarith) (by linarith)
  exact ⟨hrad, by rw [hpitch]; exact hNP_ge, by rw [hpitch]; exact hNP_le⟩

/-- C7: for every camera whose eye is at positive distance from its
center and every nonempty finite sequence of `orbit` calls with arbitrary
yaw and pitch deltas, the observed pitch (`asin` of the eye-to-center y
offset over the radius) stays within `[-1.5, 1.5]` radians after the
sequence — hence after any call of any sequence. -/
theorem c7_pitch_clamp (f : ℝ → ℝ → ℝ) (c : Camera) (ds : List (ℝ × ℝ))
    (h : 0 < cameraRadius c) (hne : ds ≠ []) :
    -(3/2) ≤ cameraPitch (Camera.orbitFold f c ds) ∧
    cameraPitch (Camera.orbitFold f c ds) ≤ 3/2 := by
  induction ds generalizing c with
  | nil => exact absurd rfl hne
  | cons d tail ih =>
    rw [Camera.orbitFold_cons]
    rcases eq_or_ne tail [] with htail | htail
    · subst htail
      rw [Camera.orbitFold_nil]
      have hone := orbit_pitch_clamped f c d.1 d.2 h
      exact ⟨hone.2.1, hone.2.2⟩
    · have hrad := (orbit_pitch_clamped f c d.1 d.2 h).1
      have h2 : 0 < cameraRadius (Camera.orbit f c d.1 d.2) := by
        rw [hrad]
        exact h
      exact ih (Camera.orbit f c d.1 d.2) h2 htail

/-- Witness for `c7_pitch_clamp`: a camera 5 units from its center, one
orbit call with a pitch delta of 10 radians. -/
theorem c7_pitch_clamp_witness :
    (0 < cameraRadius ⟨⟨0,0,5⟩, ⟨0,0,0⟩, ⟨0,1,0⟩, Vec3.zero, Vec3.zero, true⟩ ∧
     ([((0:ℝ), (10:ℝ))] ≠ [])) ∧
    -(3/2) ≤ cameraPitch (Camera.orbitFold (fun _ _ => 0)
      ⟨⟨0,0,5⟩, ⟨0,0,0⟩, ⟨0,1,0⟩, Vec3.zero, Vec3.zero, true⟩ [(0, 10)]) ∧
    cameraPitch (Camera.orbitFold (fun _ _ => 0)
      ⟨⟨0,0,5⟩, ⟨0,0,0⟩, ⟨0,1,0⟩, Vec3.zero, Vec3.zero, true⟩ [(0, 10)]) ≤ 3/2 := by
  have hrad : 0 < cameraRadius ⟨⟨0,0,5⟩, ⟨0,0,0⟩, ⟨0,1,0⟩, Vec3.zero, Vec3.zero, true⟩ := by
    rw [cameraRadius, Vec3.lengthR]
    apply Real.sqrt_pos.mpr
    norm_num [Vec3.sub, Vec3.dot]
  have hne : ([((0:ℝ), (10:ℝ))] ≠ []) := by simp
  have hmain := c7_pitch_clamp (fun _ _ => 0)
    ⟨⟨0,0,5⟩, ⟨0,0,0⟩, ⟨0,1,0⟩, Vec3.zero, Vec3.zero, true⟩ [(0, 10)] hrad hne
  exact ⟨⟨hrad, hne⟩, hmain.1, hmain.2⟩
